import Mathlib

/-
Verification of the frametide core (Figma design-system extraction server):
a shallow embedding of the session/queue tracker (src/services/session.ts),
the TTL cache wrapper (src/services/cache.ts), the design-token extractor
and the component extractor (state classification, effect-to-CSS
conversion, tree traversal), together with theorems checking the
natural-language specification against the embedded code.

Conventions of the embedding:
- JS timestamps (Date.now(), ISO strings converted via getTime()) are
  modelled as integer milliseconds.
- JS numbers are modelled as exact fractions (JSNum) with a positive
  denominator by construction; Math.round(x) is floor(x + 1/2), which is
  the ECMAScript definition in exact arithmetic.
- JS Map objects are modelled as insertion-ordered association lists:
  set on an existing key updates the entry in place, otherwise appends.
- Fallible lookups return Option; JS truthiness tests are modelled
  explicitly where the code relies on them.
-/

/-- Exact-fraction model of a JS number: `num / den`. All values built in
this file keep `den > 0`; operations are exact (JS doubles are a subset of
the rationals; rounding noise is irrelevant at the values in scope). -/
structure JSNum where
  num : Int
  den : Int
deriving DecidableEq

/-- Embed an integer as a JS number. -/
def JSNum.ofInt (n : Int) : JSNum := ⟨n, 1⟩

/-- Embed a natural number as a JS number. -/
def JSNum.ofNat (n : Nat) : JSNum := ⟨(n : Int), 1⟩

/-- JS multiplication on the fraction model. -/
def JSNum.mul (a b : JSNum) : JSNum := ⟨a.num * b.num, a.den * b.den⟩

/-- JS division on the fraction model. -/
def JSNum.div (a b : JSNum) : JSNum := ⟨a.num * b.den, a.den * b.num⟩

/-- The JS expression `x || d` for numbers: `x` when its value is nonzero
(truthy), otherwise `d` (0 is falsy; NaN is out of scope of this model). -/
def jsNumOr (x d : JSNum) : JSNum := if x.num = 0 then d else x

/-- Whether a JS number is `<= 0` (denominator-sign aware). -/
def JSNum.leZero (x : JSNum) : Bool :=
  if x.den < 0 then 0 ≤ x.num else x.num ≤ 0

/-- `Math.round`: floor(x + 1/2) in exact arithmetic, as ECMAScript
specifies (half-up, toward +infinity). -/
def jsRound (x : JSNum) : Int :=
  let n := if x.den < 0 then -x.num else x.num
  let d := if x.den < 0 then -x.den else x.den
  Int.fdiv (2 * n + d) (2 * d)

/-- Decimal digits of a natural number, most significant first (fuel-driven,
`fuel > n` suffices). -/
def natDigitsAux : Nat → Nat → List Char
  | 0, _ => []
  | fuel + 1, n => if n = 0 then [] else natDigitsAux fuel (n / 10) ++ [Char.ofNat (48 + n % 10)]

/-- Decimal rendering of a natural number, as JS `String(n)`. -/
def natToStr (n : Nat) : String := if n = 0 then "0" else String.mk (natDigitsAux (n + 1) n)

/-- Decimal rendering of an integer, as JS `String(i)`. -/
def intToStr (i : Int) : String := if i < 0 then "-" ++ natToStr i.natAbs else natToStr i.toNat

/-- Lowercase hexadecimal digit. -/
def hexDigitChar (d : Nat) : Char := if d < 10 then Char.ofNat (48 + d) else Char.ofNat (87 + d)

/-- Hexadecimal digits of a natural number, most significant first. -/
def natHexAux : Nat → Nat → List Char
  | 0, _ => []
  | fuel + 1, n => if n = 0 then [] else natHexAux fuel (n / 16) ++ [hexDigitChar (n % 16)]

/-- Hexadecimal rendering of a natural number, as JS `n.toString(16)`. -/
def natToHex (n : Nat) : String := if n = 0 then "0" else String.mk (natHexAux (n + 1) n)

/-- Hexadecimal rendering of an integer, as JS `i.toString(16)` (negative
numbers render with a leading minus sign, exactly as in JS). -/
def intToHex (i : Int) : String := if i < 0 then "-" ++ natToHex i.natAbs else natToHex i.toNat

/-- JS `s.padStart(2, "0")`. -/
def padStart2 (s : String) : String :=
  if s.length ≥ 2 then s else if s.length = 1 then "0" ++ s else "00"

/-- Fractional decimal digits of `rem / den` (`rem < den`), fuel-driven.
All number values appearing in this development have terminating decimal
expansions (JS doubles are dyadic), so the fuel is never exhausted. -/
def fracDigitsAux : Nat → Nat → Nat → List Char
  | 0, _, _ => []
  | fuel + 1, rem, den =>
    if rem = 0 then []
    else Char.ofNat (48 + rem * 10 / den) :: fracDigitsAux fuel (rem * 10 % den) den

/-- JS `Number.prototype.toString` on the fraction model: integer part,
then a fractional part without trailing zeros (matches JS on every number
whose decimal expansion terminates, which covers all values in scope). -/
def jsNumToString (x : JSNum) : String :=
  let n := if x.den < 0 then -x.num else x.num
  let d := (if x.den < 0 then -x.den else x.den).toNat
  if d = 0 then "NaN"
  else
    let sign := if n < 0 then "-" else ""
    let a := n.natAbs
    let ip := a / d
    let rem := a % d
    if rem = 0 then sign ++ natToStr ip
    else sign ++ natToStr ip ++ "." ++ String.mk (fracDigitsAux 64 rem d)

/-- Lowercasing, as JS `toLowerCase` on ASCII (the only alphabet used by
the state patterns and token keywords). -/
def strLower (s : String) : String := String.mk (s.data.map Char.toLower)

/-- Whether `p` is a leading segment of `s` (character lists). -/
def listIsLeading : List Char → List Char → Bool
  | [], _ => true
  | _ :: _, [] => false
  | p :: ps, c :: cs => p == c && listIsLeading ps cs

/-- Whether `needle` occurs as a contiguous segment of the list. -/
def listContainsSeg (needle : List Char) : List Char → Bool
  | [] => needle.isEmpty
  | c :: cs => listIsLeading needle (c :: cs) || listContainsSeg needle cs

/-- JS `s.includes(sub)`. -/
def strContainsSub (s sub : String) : Bool := listContainsSeg sub.data s.data

/-- JS `s.startsWith(p)`. -/
def strLeadsWith (s p : String) : Bool := listIsLeading p.data s.data

/-- JS `s.endsWith(p)`. -/
def strTrailsWith (s p : String) : Bool := listIsLeading p.data.reverse s.data.reverse

/-- JS `Array.prototype.join(sep)`. -/
def joinSep (sep : String) : List String → String
  | [] => ""
  | [s] => s
  | s :: rest => s ++ sep ++ joinSep sep rest

/-- JS `Map.prototype.get` on the insertion-ordered association-list model. -/
def mapGet {α : Type} : List (String × α) → String → Option α
  | [], _ => none
  | (k2, v2) :: rest, k => if k2 = k then some v2 else mapGet rest k

/-- JS `Map.prototype.set`: updates an existing key in place (keeping its
insertion position), otherwise appends at the end. -/
def mapSet {α : Type} : List (String × α) → String → α → List (String × α)
  | [], k, v => [(k, v)]
  | (k2, v2) :: rest, k, v =>
    if k2 = k then (k, v) :: rest else (k2, v2) :: mapSet rest k v

/-- JS `Map.prototype.delete` (dropping the entry for the key). -/
def mapDelete {α : Type} : List (String × α) → String → List (String × α)
  | [], _ => []
  | (k2, v2) :: rest, k => if k2 = k then mapDelete rest k else (k2, v2) :: mapDelete rest k

/-
SessionManager (src/services/session.ts, lines 5-242).
-/

/-- The four component implementation statuses
(`'pending' | 'in-progress' | 'implemented' | 'needs-update'`). -/
inductive ComponentStatusKind where
  | pending
  | inProgress
  | implemented
  | needsUpdate
deriving DecidableEq

/-- `ComponentImplementationStatus` (session.ts lines 15-23); the ISO
timestamps are modelled as epoch milliseconds. -/
structure ComponentImplementationStatus where
  componentId : String
  componentName : String
  status : ComponentStatusKind
  lastModified : Option Int
  implementedAt : Option Int
  notes : Option String
  framework : Option String
deriving DecidableEq

/-- `WorkingFile` (session.ts lines 5-13): one client session, with the
per-component status map as an insertion-ordered association list. -/
structure WorkingFile where
  fileId : String
  fileName : Option String
  url : String
  setAt : Int
  lastAccessed : Int
  implementationStatus : List (String × ComponentImplementationStatus)
deriving DecidableEq

/-- A component as listed by the extractor (`ComponentListItem`); only the
fields the session tracker reads are modelled. -/
structure ComponentListItem where
  id : String
  name : String
  type : String
deriving DecidableEq

/-- `ImplementationQueue` (session.ts lines 25-31). -/
structure ImplementationQueue where
  pending : List ComponentListItem
  inProgress : List ComponentListItem
  implemented : List ComponentListItem
  needsUpdate : List ComponentListItem
  total : Nat
deriving DecidableEq

/-- The stats record of `getImplementationSummary`. -/
structure ImplementationStats where
  total : Nat
  pending : Nat
  inProgress : Nat
  implemented : Nat
  needsUpdate : Nat
  completionPercentage : Int
deriving DecidableEq

/-- The return shape of `getImplementationSummary`. -/
structure ImplementationSummary where
  hasWorkingFile : Bool
  workingFile : Option WorkingFile
  stats : ImplementationStats
deriving DecidableEq

/-- `SESSION_TTL = 24 * 60 * 60 * 1000` (24 hours in ms). -/
def SessionManager.SESSION_TTL : Int := 24 * 60 * 60 * 1000

/-- `SessionManager.getWorkingFile` (session.ts lines 61-82): absent client
gives null; a session older than the TTL (measured from `setAt`) is deleted
and null is returned; otherwise `lastAccessed` is refreshed (a mutation of
the stored session) and the session returned. State-passing models the
mutation of the private `sessions` map. -/
def SessionManager.getWorkingFile (sessions : List (String × WorkingFile))
    (clientId : String) (now : Int) :
    Option WorkingFile × List (String × WorkingFile) :=
  match mapGet sessions clientId with
  | none => (none, sessions)
  | some session =>
    if now - session.setAt > SessionManager.SESSION_TTL then
      (none, mapDelete sessions clientId)
    else
      let touched := { session with lastAccessed := now }
      (some touched, mapSet sessions clientId touched)

/-- `SessionManager.updateComponentStatus` (session.ts lines 84-124):
false when no live session; otherwise inserts/overwrites the status entry
with `lastModified := now` and
`implementedAt := status === 'implemented' ? now : existing?.implementedAt`. -/
def SessionManager.updateComponentStatus (sessions : List (String × WorkingFile))
    (clientId componentId componentName : String) (status : ComponentStatusKind)
    (notes framework : Option String) (now : Int) :
    Bool × List (String × WorkingFile) :=
  let result := SessionManager.getWorkingFile sessions clientId now
  match result.1 with
  | none => (false, result.2)
  | some session =>
    let existing := mapGet session.implementationStatus componentId
    let statusUpdate : ComponentImplementationStatus :=
      { componentId := componentId
        componentName := componentName
        status := status
        lastModified := some now
        notes := notes
        framework := framework
        implementedAt :=
          if status = ComponentStatusKind.implemented then some now
          else existing.bind (fun e => e.implementedAt) }
    let session2 :=
      { session with
        implementationStatus := mapSet session.implementationStatus componentId statusUpdate
        lastAccessed := now }
    (true, mapSet result.2 clientId session2)

/-- The per-component dispatch loop of `getImplementationQueue`
(session.ts lines 146-158): each component is pushed onto exactly one of
the four lists according to its tracked status, untracked (or no session)
defaulting to pending.  The forward-iterating push loop is modelled by
structural recursion producing the lists in the same (input) order, with
`total` counting every dispatched component (the source sets
`total := components.length` up front; the two agree, which is proved
below). -/
def SessionManager.dispatchQueue (sessionOpt : Option WorkingFile) :
    List ComponentListItem → ImplementationQueue
  | [] => ⟨[], [], [], [], 0⟩
  | component :: rest =>
    let q := SessionManager.dispatchQueue sessionOpt rest
    match sessionOpt.bind (fun s => mapGet s.implementationStatus component.id) with
    | none => { q with pending := component :: q.pending, total := q.total + 1 }
    | some st =>
      match st.status with
      | ComponentStatusKind.pending =>
        { q with pending := component :: q.pending, total := q.total + 1 }
      | ComponentStatusKind.inProgress =>
        { q with inProgress := component :: q.inProgress, total := q.total + 1 }
      | ComponentStatusKind.implemented =>
        { q with implemented := component :: q.implemented, total := q.total + 1 }
      | ComponentStatusKind.needsUpdate =>
        { q with needsUpdate := component :: q.needsUpdate, total := q.total + 1 }

/-- `SessionManager.getImplementationQueue` (session.ts lines 135-161). -/
def SessionManager.getImplementationQueue (sessions : List (String × WorkingFile))
    (clientId : String) (components : List ComponentListItem) (now : Int) :
    ImplementationQueue × List (String × WorkingFile) :=
  let result := SessionManager.getWorkingFile sessions clientId now
  (SessionManager.dispatchQueue result.1 components, result.2)

/-- `SessionManager.getImplementationSummary` (session.ts lines 163-208):
the stats are computed over the values of the session's status map
(`Array.from(session.implementationStatus.values())`), and
`completionPercentage = Math.round((implemented / statuses.length) * 100)`
when any statuses are tracked, else 0. -/
def SessionManager.getImplementationSummary (sessions : List (String × WorkingFile))
    (clientId : String) (now : Int) :
    ImplementationSummary × List (String × WorkingFile) :=
  let result := SessionManager.getWorkingFile sessions clientId now
  match result.1 with
  | none => (⟨false, none, ⟨0, 0, 0, 0, 0, 0⟩⟩, result.2)
  | some session =>
    let statuses := session.implementationStatus.map (fun p => p.2)
    let implementedCount :=
      (statuses.filter (fun s => s.status = ComponentStatusKind.implemented)).length
    let stats : ImplementationStats :=
      { total := statuses.length
        pending := (statuses.filter (fun s => s.status = ComponentStatusKind.pending)).length
        inProgress := (statuses.filter (fun s => s.status = ComponentStatusKind.inProgress)).length
        implemented := implementedCount
        needsUpdate := (statuses.filter (fun s => s.status = ComponentStatusKind.needsUpdate)).length
        completionPercentage :=
          if statuses.length > 0 then
            jsRound ((JSNum.ofNat implementedCount).div (JSNum.ofNat statuses.length)
              |>.mul (JSNum.ofInt 100))
          else 0 }
    (⟨true, some session, stats⟩, result.2)

/-
CacheService (src/services/cache.ts): a wrapper around the lru-cache
package, constructed with max = maxSize || 1000, ttl = defaultTtl,
updateAgeOnGet: true, allowStale: false.
-/

/-- `CacheEntry<T>` (cache.ts): the wrapper's own entry with its logical
TTL, stored as the LRU cache's value. -/
structure CacheEntry (α : Type) where
  data : α
  timestamp : Int
  ttl : Int
deriving DecidableEq

/-- One slot of the underlying lru-cache: the stored value plus the age
used for the LRU-level TTL (refreshed on get because of
`updateAgeOnGet: true`). -/
structure LruSlot (α : Type) where
  entry : CacheEntry α
  insertedAt : Int
deriving DecidableEq

/-- State of the underlying lru-cache instance: entries most-recent-first,
the capacity bound, and the construction-time TTL (0 would mean no TTL in
lru-cache; the wrapper always passes a TTL). -/
structure LruState (α : Type) where
  entries : List (String × LruSlot α)
  max : Nat
  lruTtl : Int
deriving DecidableEq

/-- lru-cache `get` with `updateAgeOnGet: true, allowStale: false`: a
stale entry (age at least the construction TTL) is treated as missing and
purged; a live entry is returned, its age refreshed and moved to the
most-recent position. -/
def lruGet {α : Type} (st : LruState α) (key : String) (now : Int) :
    Option (CacheEntry α) × LruState α :=
  match (st.entries.find? (fun p => p.1 == key)).map (fun p => p.2) with
  | none => (none, st)
  | some slot =>
    if st.lruTtl > 0 ∧ now - slot.insertedAt ≥ st.lruTtl then
      (none, { st with entries := st.entries.filter (fun p => ¬(p.1 = key)) })
    else
      let slot2 := { slot with insertedAt := now }
      (some slot2.entry,
        { st with entries := (key, slot2) :: st.entries.filter (fun p => ¬(p.1 = key)) })

/-- lru-cache `set`: (re)inserts at the most-recent position and evicts
least-recently-used entries beyond the capacity bound. -/
def lruSet {α : Type} (st : LruState α) (key : String) (e : CacheEntry α) (now : Int) :
    LruState α :=
  { st with
    entries := (((key, ⟨e, now⟩) :: st.entries.filter (fun p => ¬(p.1 = key))).take st.max) }

/-- lru-cache `delete`. -/
def lruDelete {α : Type} (st : LruState α) (key : String) : LruState α :=
  { st with entries := st.entries.filter (fun p => ¬(p.1 = key)) }

/-- `CacheService` state: the LRU cache plus the wrapper's default TTL. -/
structure CacheService (α : Type) where
  lru : LruState α
  defaultTtl : Int
deriving DecidableEq

/-- The `CacheService` constructor:
`defaultTtl = options.defaultTtl || 3600000` and
`max = options.maxSize || 1000` (JS `||`: absent or 0 falls back), the LRU
cache being constructed with `ttl: this.defaultTtl`. -/
def CacheService.create {α : Type} (maxSize : Option Nat) (defaultTtl : Option Int) :
    CacheService α :=
  let dt : Int := match defaultTtl with
    | some t => if t = 0 then 3600000 else t
    | none => 3600000
  let mx : Nat := match maxSize with
    | some m => if m = 0 then 1000 else m
    | none => 1000
  ⟨⟨[], mx, dt⟩, dt⟩

/-- `CacheService.isExpired` (cache.ts lines 340-342):
`Date.now() - entry.timestamp > entry.ttl`. -/
def CacheService.isExpired {α : Type} (entry : CacheEntry α) (now : Int) : Bool :=
  now - entry.timestamp > entry.ttl

/-- `CacheService.get` (cache.ts lines 270-284): missing in the LRU cache
gives null; an entry past its own TTL is deleted and null returned;
otherwise its data. -/
def CacheService.get {α : Type} (cs : CacheService α) (key : String) (now : Int) :
    Option α × CacheService α :=
  let r := lruGet cs.lru key now
  match r.1 with
  | none => (none, { cs with lru := r.2 })
  | some entry =>
    if CacheService.isExpired entry now then
      (none, { cs with lru := lruDelete r.2 key })
    else
      (some entry.data, { cs with lru := r.2 })

/-- `CacheService.set` (cache.ts lines 286-294): stores
`{data, timestamp: Date.now(), ttl: ttl || this.defaultTtl}` (JS `||`: a
ttl of 0 falls back to the default). -/
def CacheService.set {α : Type} (cs : CacheService α) (key : String) (data : α)
    (ttl : Option Int) (now : Int) : CacheService α :=
  let t : Int := match ttl with
    | some t0 => if t0 = 0 then cs.defaultTtl else t0
    | none => cs.defaultTtl
  { cs with lru := lruSet cs.lru key ⟨data, now, t⟩ now }

/-
DesignTokenExtractor (src/extractors/token.ts): token collection shape,
the tokenTypes filter and the cache-hit/cache-miss result paths of
extractTokens, and convertVariableToToken with its helpers.
-/

/-- Normalized-float RGBA color (`0..1` per channel), alpha optional as in
the Figma payloads. -/
structure RGBA where
  r : JSNum
  g : JSNum
  b : JSNum
  a : Option JSNum
deriving DecidableEq

/-- `rgbaToHex` (token.ts lines 2270-2275 and component.ts lines
1349-1354): rounded 0-255 channels rendered as 2-digit lowercase hex. -/
def rgbaToHex (rgba : RGBA) : String :=
  let r := jsRound (rgba.r.mul (JSNum.ofInt 255))
  let g := jsRound (rgba.g.mul (JSNum.ofInt 255))
  let b := jsRound (rgba.b.mul (JSNum.ofInt 255))
  "#" ++ padStart2 (intToHex r) ++ padStart2 (intToHex g) ++ padStart2 (intToHex b)

/-- A raw value of a Figma variable in one mode (the duck-typed
`valuesByMode` payload). -/
inductive VariableValue where
  | ofBool (b : Bool)
  | ofNum (x : JSNum)
  | ofString (s : String)
  | ofColor (c : RGBA)
  | ofAlias (aliasId : String)
deriving DecidableEq

/-- JS truthiness of a variable value: `false`, `0` and `""` are falsy,
every object is truthy (NaN is out of scope of the model). -/
def jsTruthy : VariableValue → Bool
  | VariableValue.ofBool b => b
  | VariableValue.ofNum x => !(x.num == 0)
  | VariableValue.ofString s => !(s == "")
  | VariableValue.ofColor _ => true
  | VariableValue.ofAlias _ => true

/-- A processed token value: a rendered string (hex colors), or the raw
variable value passed through unchanged by `processVariableValue`. -/
inductive TokenValue where
  | ofString (s : String)
  | ofNum (x : JSNum)
  | ofBool (b : Bool)
  | ofColor (c : RGBA)
  | ofAlias (aliasId : String)
deriving DecidableEq

/-- Pass-through embedding of a raw variable value as a token value. -/
def TokenValue.ofVariableValue : VariableValue → TokenValue
  | VariableValue.ofBool b => TokenValue.ofBool b
  | VariableValue.ofNum x => TokenValue.ofNum x
  | VariableValue.ofString s => TokenValue.ofString s
  | VariableValue.ofColor c => TokenValue.ofColor c
  | VariableValue.ofAlias i => TokenValue.ofAlias i

/-- `DesignToken` with the fields produced by the token synthesizer
(style- and variable-derived tokens both fit; absent JS fields are none). -/
structure DesignToken where
  name : String
  value : TokenValue
  type : String
  description : Option String
  category : Option String
  usage : Option (List String)
  collectionName : Option String
  variableId : Option String
  modes : Option (List (String × TokenValue))
deriving DecidableEq

/-- The availability metadata carried by a `TokenCollection`
(`{variablesAvailable, variablesMessage?, planRequired?}`). -/
structure TokenMetadata where
  variablesAvailable : Bool
  variablesMessage : Option String
  planRequired : Option String
deriving DecidableEq

/-- `TokenCollection` (token.ts lines 1721-1732): the five token buckets
plus the optional `_metadata` field. -/
structure TokenCollection where
  colors : List DesignToken
  typography : List DesignToken
  spacing : List DesignToken
  effects : List DesignToken
  «variables» : List DesignToken
  _metadata : Option TokenMetadata
deriving DecidableEq

/-- `DesignTokenExtractor.filterTokenTypes` (token.ts lines 2004-2034):
the sentinel `all` returns the collection unchanged; otherwise a fresh
collection is built keeping only the requested buckets — the fresh object
literal has no `_metadata` field. -/
def DesignTokenExtractor.filterTokenTypes (tokens : TokenCollection)
    (tokenTypes : List String) : TokenCollection :=
  if tokenTypes.contains "all" then tokens
  else
    { colors := if tokenTypes.contains "colors" then tokens.colors else []
      typography := if tokenTypes.contains "typography" then tokens.typography else []
      spacing := if tokenTypes.contains "spacing" then tokens.spacing else []
      effects := if tokenTypes.contains "effects" then tokens.effects else []
      «variables» := if tokenTypes.contains "variables" then tokens.«variables» else []
      _metadata := none }

/-- The caching/filtering control flow of `DesignTokenExtractor.extractTokens`
(token.ts lines 1740-1843). `cached` is the value found under
`tokens:{fileId}` (none on a cache miss); `freshTokens` is the collection
synthesized on a miss, with any availability metadata already attached
(lines 1805-1811). On a cache hit the filter result is returned directly
(line 1748); on a miss the filter is applied and then
`if (tokens._metadata) filtered._metadata = tokens._metadata` re-attaches
the metadata (lines 1825-1830) before returning. -/
def DesignTokenExtractor.extractTokensResult (cached : Option TokenCollection)
    (freshTokens : TokenCollection) (tokenTypes : List String) : TokenCollection :=
  match cached with
  | some c => DesignTokenExtractor.filterTokenTypes c tokenTypes
  | none =>
    let filtered := DesignTokenExtractor.filterTokenTypes freshTokens tokenTypes
    match freshTokens._metadata with
    | some m => { filtered with _metadata := some m }
    | none => filtered

/-- `normalizeTokenName` (token.ts lines 2036-2042): lowercase, replace
every character outside a-z0-9 by a dash, collapse dash runs, strip one
leading and one trailing dash (the global regex matching a dash at the
start or at the end; after collapsing there is at most one of each). -/
def collapseDashes : List Char → List Char
  | [] => []
  | [c] => [c]
  | c :: d :: cs =>
    if c == '-' && d == '-' then collapseDashes (d :: cs)
    else c :: collapseDashes (d :: cs)

/-- Strip a single leading dash (first half of the final replace). -/
def stripLeadDash : List Char → List Char
  | '-' :: cs => cs
  | cs => cs

/-- Strip a single trailing dash (second half of the final replace). -/
def stripTrailDash (cs : List Char) : List Char :=
  (stripLeadDash cs.reverse).reverse

/-- `normalizeTokenName` itself (see `collapseDashes`). -/
def normalizeTokenName (name : String) : String :=
  let lowered := (strLower name).data
  let replaced := lowered.map (fun c =>
    if (97 ≤ c.toNat ∧ c.toNat ≤ 122) ∨ (48 ≤ c.toNat ∧ c.toNat ≤ 57) then c else '-')
  String.mk (stripTrailDash (stripLeadDash (collapseDashes replaced)))

/-- `mapVariableTypeToTokenType` (token.ts lines 2160-2173). -/
def mapVariableTypeToTokenType (type : String) : String :=
  if type = "COLOR" then "color"
  else if type = "FLOAT" then "spacing"
  else if type = "STRING" then "content"
  else if type = "BOOLEAN" then "boolean"
  else "unknown"

/-- `processVariableValue` (token.ts lines 2145-2158): COLOR values are
rendered to hex (a non-color payload would produce NaN channels in JS);
every other resolved type passes the value through unchanged. -/
def processVariableValue (value : VariableValue) (type : String) : TokenValue :=
  if type = "COLOR" then
    match value with
    | VariableValue.ofColor c => TokenValue.ofString (rgbaToHex c)
    | _ => TokenValue.ofString "#NaNNaNNaN"
  else TokenValue.ofVariableValue value

/-- The ordered color-category keyword table of `inferColorCategory`
(token.ts lines 2044-2064), in object-literal insertion order. -/
def colorCategoryTable : List (String × List String) :=
  [("primary", ["primary", "main", "brand"]),
   ("secondary", ["secondary", "accent"]),
   ("neutral", ["neutral", "gray", "grey", "black", "white"]),
   ("semantic", ["success", "error", "warning", "info", "danger"]),
   ("text", ["text", "foreground", "content"]),
   ("background", ["background", "surface", "backdrop"]),
   ("border", ["border", "outline", "stroke"])]

/-- First category whose keyword list matches the lowercased name. -/
def findCategoryIn (lname : String) : List (String × List String) → String
  | [] => "miscellaneous"
  | (cat, kws) :: rest =>
    if kws.any (fun kw => strContainsSub lname kw) then cat else findCategoryIn lname rest

/-- `inferColorCategory` (token.ts lines 2044-2064). -/
def inferColorCategory (name : String) : String :=
  findCategoryIn (strLower name) colorCategoryTable

/-- `inferVariableCategory` (token.ts lines 2175-2203). -/
def inferVariableCategory (name : String) (type : String) : String :=
  let lname := strLower name
  if type = "COLOR" then inferColorCategory name
  else if type = "FLOAT" then
    if strContainsSub lname "spacing" || strContainsSub lname "gap" ||
       strContainsSub lname "margin" || strContainsSub lname "padding" then "spacing"
    else if strContainsSub lname "border" || strContainsSub lname "stroke" then "border"
    else if strContainsSub lname "radius" || strContainsSub lname "corner" then "radius"
    else "dimension"
  else if type = "STRING" then
    if strContainsSub lname "font" || strContainsSub lname "family" then "font-family"
    else "content"
  else "miscellaneous"

/-- `processModes` (token.ts lines 2205-2213). -/
def processModes (valuesByMode : List (String × VariableValue)) (type : String) :
    List (String × TokenValue) :=
  valuesByMode.map (fun p => (p.1, processVariableValue p.2 type))

/-- One mode of a variable collection. -/
structure VariableMode where
  modeId : String
  name : String
deriving DecidableEq

/-- A variable collection as delivered by the variables API. -/
structure VariableCollection where
  id : String
  name : String
  defaultModeId : Option String
  modes : List VariableMode
deriving DecidableEq

/-- A Figma variable as delivered by the variables API. -/
structure FigmaVariable where
  id : String
  name : String
  description : Option String
  variableCollectionId : String
  resolvedType : String
  valuesByMode : List (String × VariableValue)
deriving DecidableEq

/-- The default-mode resolution of `convertVariableToToken` (token.ts
lines 2119-2125): the collection is looked up in `collectionsMap`;
`defaultModeId = collection?.defaultModeId || collection?.modes?.[0]?.modeId`
(JS `||`: an empty-string id falls through); then
`defaultValue = valuesByMode[defaultModeId]` — when `defaultModeId` is
undefined, JS coerces the index to the literal key "undefined". -/
def defaultModeValue («variable» : FigmaVariable)
    (collectionsMap : List (String × VariableCollection)) : Option VariableValue :=
  let collection := mapGet collectionsMap «variable».variableCollectionId
  let defaultModeId : Option String :=
    match collection with
    | some c =>
      match c.defaultModeId with
      | some dm => if dm = "" then c.modes.head?.map (fun m => m.modeId) else some dm
      | none => c.modes.head?.map (fun m => m.modeId)
    | none => none
  match defaultModeId with
  | some dm => mapGet «variable».valuesByMode dm
  | none => mapGet «variable».valuesByMode "undefined"

/-- `convertVariableToToken` (token.ts lines 2118-2143): resolves the
default-mode value, returns null on `if (!defaultValue)` — absent OR falsy
— and otherwise builds the token ( name `{collectionName}-{variable.name}`
normalized, value/type/category mapped, `modes` only when more than one
mode exists). -/
def DesignTokenExtractor.convertVariableToToken («variable» : FigmaVariable)
    (collectionsMap : List (String × VariableCollection)) : Option DesignToken :=
  let collection := mapGet collectionsMap «variable».variableCollectionId
  let collectionName : String :=
    match collection with
    | some c => if c.name = "" then "unknown" else c.name
    | none => "unknown"
  match defaultModeValue «variable» collectionsMap with
  | none => none
  | some v =>
    if jsTruthy v = false then none
    else
      some
        { name := normalizeTokenName (collectionName ++ "-" ++ «variable».name)
          value := processVariableValue v «variable».resolvedType
          type := mapVariableTypeToTokenType «variable».resolvedType
          description :=
            match «variable».description with
            | some d => if d = "" then none else some d
            | none => none
          category := some (inferVariableCategory «variable».name «variable».resolvedType)
          usage := none
          collectionName := some collectionName
          variableId := some «variable».id
          modes :=
            if «variable».valuesByMode.length > 1 then
              some (processModes «variable».valuesByMode «variable».resolvedType)
            else none }

/-
ComponentExtractor (src/extractors/component.ts): state classification
from layer names, effect-to-CSS conversion, and the document traversals.
-/

/-- The canonical ordered state list of `extractStatesFromLayers`
(component.ts lines 1406-1418). -/
def statePatterns : List String :=
  ["hover", "focus", "active", "pressed", "disabled", "selected",
   "loading", "error", "success", "warning", "visited"]

/-- The per-pattern condition of the loop in `parseStateFromLayerName`
(component.ts lines 1474-1487): exact match, substring, `state=` form,
underscore/dash delimited forms, or colon-attached at either end. -/
def stateGenericMatch (name : String) (pattern : String) : Bool :=
  name == pattern ||
  strContainsSub name pattern ||
  strContainsSub name ("state=" ++ pattern) ||
  strContainsSub name ("_" ++ pattern) ||
  strContainsSub name ("-" ++ pattern) ||
  strContainsSub name (pattern ++ "_") ||
  strContainsSub name (pattern ++ "-") ||
  strLeadsWith name (pattern ++ ":") ||
  strTrailsWith name (":" ++ pattern)

/-- JS whitespace class membership for the characters relevant here. -/
def isJsSpace (c : Char) : Bool :=
  c == ' ' || c == '\t' || c == '\n' || c == '\r' || c == '\x0b' || c == '\x0c'

/-- First match of the regex capturing, after a literal `state=`, a
nonempty run of characters that are neither a comma nor whitespace
(component.ts line 1491): the scan tries each position left to right, as
the regex engine does. -/
def stateEqMatchAux : List Char → Option String
  | [] => none
  | c :: cs =>
    if listIsLeading "state=".data (c :: cs) then
      let tok := ((c :: cs).drop 6).takeWhile (fun ch => !(ch == ',') && !(isJsSpace ch))
      if tok.isEmpty then stateEqMatchAux cs else some (String.mk tok)
    else stateEqMatchAux cs

/-- `parseStateFromLayerName` (component.ts lines 1471-1498): the loop
over the ordered patterns returns the first generic match; only when no
pattern matched at all does the `state=` extraction run, returning its
capture when it is a canonical state. -/
def parseStateFromLayerName (layerName : String) (patterns : List String) : Option String :=
  let name := strLower layerName
  match patterns.find? (fun pattern => stateGenericMatch name pattern) with
  | some pattern => some pattern
  | none =>
    if strContainsSub name "state=" then
      match stateEqMatchAux name.data with
      | some m => if patterns.contains m then some m else none
      | none => none
    else none

/-- A 2D offset of an effect. -/
structure Vec2 where
  x : JSNum
  y : JSNum
deriving DecidableEq

/-- A raw effect of a Figma node (duck-typed payload; absent fields are
none). -/
structure FigmaEffect where
  type : String
  color : Option RGBA
  offset : Option Vec2
  radius : Option JSNum
  spread : Option JSNum
  visible : Option Bool
deriving DecidableEq

/-- The effect record produced by `extractEffects` (color already rendered
to an rgba string, spread defaulted, visibility normalized to a Bool). -/
structure ExtractedEffect where
  type : String
  color : Option String
  offset : Option Vec2
  radius : Option JSNum
  spread : JSNum
  visible : Bool
deriving DecidableEq

/-- `rgbaToCSS` (component.ts lines 1356-1364): 0-255 rounded integer
channels, alpha preserved (defaulting to 1 when absent), rendered as an
`rgba(r, g, b, a)` string. -/
def rgbaToCSS (rgba : RGBA) : String :=
  let r := jsRound (rgba.r.mul (JSNum.ofInt 255))
  let g := jsRound (rgba.g.mul (JSNum.ofInt 255))
  let b := jsRound (rgba.b.mul (JSNum.ofInt 255))
  let a := rgba.a.getD (JSNum.ofInt 1)
  "rgba(" ++ intToStr r ++ ", " ++ intToStr g ++ ", " ++ intToStr b ++ ", "
    ++ jsNumToString a ++ ")"

/-- `extractEffects` (component.ts lines 1194-1211): per effect, the color
is rendered with `rgbaToCSS` when present, `spread` falls back to 0 via JS
`||`, and `visible` becomes `effect.visible !== false`. -/
def extractEffects (effects : List FigmaEffect) : List ExtractedEffect :=
  effects.map (fun effect =>
    { type := effect.type
      color := effect.color.map rgbaToCSS
      offset := effect.offset
      radius := effect.radius
      spread :=
        match effect.spread with
        | some s => jsNumOr s (JSNum.ofInt 0)
        | none => JSNum.ofInt 0
      visible := !(effect.visible == some false) })

/-- `convertDropShadowToCSS` (component.ts lines 1680-1691): null without
an offset or radius; otherwise rounded x/y/blur/spread pixels and the
color (falling back to `rgba(0, 0, 0, 0.25)` when absent or empty). -/
def convertDropShadowToCSS (effect : ExtractedEffect) : Option String :=
  match effect.offset, effect.radius with
  | some offset, some radius =>
    let x := jsRound (jsNumOr offset.x (JSNum.ofInt 0))
    let y := jsRound (jsNumOr offset.y (JSNum.ofInt 0))
    let blur := jsRound (jsNumOr radius (JSNum.ofInt 0))
    let spread := jsRound (jsNumOr effect.spread (JSNum.ofInt 0))
    let color :=
      match effect.color with
      | some c => if c = "" then "rgba(0, 0, 0, 0.25)" else c
      | none => "rgba(0, 0, 0, 0.25)"
    some (intToStr x ++ "px " ++ intToStr y ++ "px " ++ intToStr blur ++ "px "
      ++ intToStr spread ++ "px " ++ color)
  | _, _ => none

/-- `convertInnerShadowToCSS` (component.ts lines 1693-1704): as the drop
shadow but with a leading `inset `. -/
def convertInnerShadowToCSS (effect : ExtractedEffect) : Option String :=
  (convertDropShadowToCSS effect).map (fun s => "inset " ++ s)

/-- `convertBlurToCSS` (component.ts lines 1706-1709). -/
def convertBlurToCSS (effect : ExtractedEffect) : Option String :=
  match effect.radius with
  | none => none
  | some r => if r.leZero then none else some ("blur(" ++ intToStr (jsRound r) ++ "px)")

/-- `convertBackgroundBlurToCSS` (component.ts lines 1711-1714), identical
to `convertBlurToCSS`. -/
def convertBackgroundBlurToCSS (effect : ExtractedEffect) : Option String :=
  convertBlurToCSS effect

/-- The CSS projection produced by `convertEffectsToCSS`. -/
structure EffectsCSS where
  boxShadow : Option String
  filter : Option String
  backdropFilter : Option String
deriving DecidableEq

/-- One step of the `effects.forEach` accumulation in
`convertEffectsToCSS` (component.ts lines 1638-1665): invisible effects
are skipped; shadows and filters accumulate in order; a background blur
overwrites the backdrop filter. -/
def convertEffectsStep (acc : List String × List String × Option String)
    (effect : ExtractedEffect) : List String × List String × Option String :=
  if effect.visible = false then acc
  else if effect.type = "DROP_SHADOW" then
    match convertDropShadowToCSS effect with
    | some s => (acc.1 ++ [s], acc.2.1, acc.2.2)
    | none => acc
  else if effect.type = "INNER_SHADOW" then
    match convertInnerShadowToCSS effect with
    | some s => (acc.1 ++ [s], acc.2.1, acc.2.2)
    | none => acc
  else if effect.type = "LAYER_BLUR" then
    match convertBlurToCSS effect with
    | some f => (acc.1, acc.2.1 ++ [f], acc.2.2)
    | none => acc
  else if effect.type = "BACKGROUND_BLUR" then
    match convertBackgroundBlurToCSS effect with
    | some b => (acc.1, acc.2.1, some b)
    | none => acc
  else acc

/-- `convertEffectsToCSS` (component.ts lines 1628-1678): shadows join
with a comma into `boxShadow` (input order preserved), filters join with a
space into `filter`. -/
def convertEffectsToCSS (effects : List ExtractedEffect) : EffectsCSS :=
  let acc := effects.foldl convertEffectsStep ([], [], none)
  { boxShadow := if acc.1.isEmpty then none else some (joinSep ", " acc.1)
    filter := if acc.2.1.isEmpty then none else some (joinSep " " acc.2.1)
    backdropFilter := acc.2.2 }

/-- A node of the Figma document tree (the fields the traversals read).
The JSON-parsed Figma payload is tree-shaped; back-references are not
representable here — the id-indexed graph model below covers that case. -/
inductive FigmaNode where
  | mk (id : String) (name : String) (type : String) (children : List FigmaNode)

/-- The id of a node. -/
def FigmaNode.id : FigmaNode → String
  | FigmaNode.mk i _ _ _ => i

/-- The name of a node. -/
def FigmaNode.name : FigmaNode → String
  | FigmaNode.mk _ n _ _ => n

/-- The type of a node. -/
def FigmaNode.type : FigmaNode → String
  | FigmaNode.mk _ _ t _ => t

/-- The children of a node. -/
def FigmaNode.children : FigmaNode → List FigmaNode
  | FigmaNode.mk _ _ _ ch => ch

mutual

/-- The inner `findInNode` of `findComponentInFile` (component.ts lines
1056-1069): return the node when its id matches, else the first match over
the children in order. -/
def findInNode (componentId : String) : FigmaNode → Option FigmaNode
  | FigmaNode.mk i nm ty ch =>
    if i == componentId then some (FigmaNode.mk i nm ty ch)
    else findInNodeList componentId ch

/-- The child loop of `findInNode` with its early return. -/
def findInNodeList (componentId : String) : List FigmaNode → Option FigmaNode
  | [] => none
  | c :: cs =>
    match findInNode componentId c with
    | some found => some found
    | none => findInNodeList componentId cs

end

/-- `findComponentInFile` (component.ts lines 1055-1072) applied to the
document root. -/
def findComponentInFile (document : FigmaNode) (componentId : String) : Option FigmaNode :=
  findInNode componentId document

mutual

/-- The `traverse` closure of `extractComponentList` (component.ts lines
1109-1132): push an item for every COMPONENT / COMPONENT_SET node, in
pre-order (file-level fields such as lastModified and the published
placeholder are orthogonal to the traversal and not modelled). -/
def extractComponentListNode : FigmaNode → List ComponentListItem
  | FigmaNode.mk i nm ty ch =>
    (if ty == "COMPONENT" || ty == "COMPONENT_SET"
     then [{ id := i, name := nm, type := ty }] else [])
      ++ extractComponentListChildren ch

/-- The `forEach` recursion over the children. -/
def extractComponentListChildren : List FigmaNode → List ComponentListItem
  | [] => []
  | c :: cs => extractComponentListNode c ++ extractComponentListChildren cs

end

/-- `extractComponentList` applied to the document root. -/
def extractComponentList (document : FigmaNode) : List ComponentListItem :=
  extractComponentListNode document

mutual

/-- The pre-order visit sequence of the depth-first traversals: the node,
then the visit sequences of its children in order. -/
def preorderNodes : FigmaNode → List FigmaNode
  | FigmaNode.mk i nm ty ch => FigmaNode.mk i nm ty ch :: preorderForest ch

/-- Pre-order visit sequence of a child list. -/
def preorderForest : List FigmaNode → List FigmaNode
  | [] => []
  | c :: cs => preorderNodes c ++ preorderForest cs

end

mutual

/-- The number of nodes of a tree. -/
def nodeCount : FigmaNode → Nat
  | FigmaNode.mk _ _ _ ch => 1 + forestCount ch

/-- The number of nodes of a child list. -/
def forestCount : List FigmaNode → Nat
  | [] => 0
  | c :: cs => nodeCount c + forestCount cs

end

/-- An id-indexed node store: the object-reference graph of the host
language, in which `children` entries may refer back to an ancestor. A
JSON payload can never produce such back-references, but the claim about
the traversal quantifies over graphs that contain them, so they are made
representable here. -/
def GraphStore : Type := List (String × List String)

/-- Children of a node in the store. -/
def graphChildren (g : GraphStore) (i : String) : List String :=
  (mapGet g i).getD []

/-- The recursion of `findInNode` transcribed over the id-indexed store,
with an explicit recursion budget: `none` means the budget was exhausted
(the unbounded recursion of the source did not return within `fuel`
nested calls), `some r` that the source recursion terminates with `r`.
The source tracks no visited set, and neither does this transcription. -/
def findGraphFuel (g : GraphStore) (componentId : String) : Nat → String → Option (Option String)
  | 0, _ => none
  | fuel + 1, cur =>
    if cur == componentId then some (some cur)
    else
      (graphChildren g cur).foldl
        (fun acc c =>
          match acc with
          | none => none
          | some (some r) => some (some r)
          | some none => findGraphFuel g componentId fuel c)
        (some none)

/-- A store with a single node `a` whose children list contains `a`
itself — the smallest back-reference. -/
def cycleStore : GraphStore := [("a", ["a"])]

/-
Concrete states used by the witnesses and counterexamples, and the
spec-side bucket function for the queue partition.
-/

/-- The status bucket the spec assigns to a component: its tracked status,
defaulting to pending when untracked or when no live session exists. -/
def statusBucketOf (sessionOpt : Option WorkingFile) (c : ComponentListItem) :
    ComponentStatusKind :=
  match sessionOpt.bind (fun s => mapGet s.implementationStatus c.id) with
  | none => ComponentStatusKind.pending
  | some st => st.status

/-- A tracked status: component `c1` implemented at time 0. -/
def c1Status : ComponentImplementationStatus :=
  ⟨"c1", "Alpha", ComponentStatusKind.implemented, some 0, some 0, none, none⟩

/-- A live session tracking exactly one status (`c1` implemented); the
other two components of the 1-of-3 scenario are untracked. -/
def c1Session : WorkingFile :=
  ⟨"file1", none, "https://www.figma.com/file/file1/Design", 0, 0, [("c1", c1Status)]⟩

/-- The session store for the 1-of-3 scenario with two untracked
components. -/
def c1Sessions : List (String × WorkingFile) := [("client", c1Session)]

/-- A session tracking three statuses: one implemented, two pending. -/
def c1TrackedSession : WorkingFile :=
  ⟨"file1", none, "https://www.figma.com/file/file1/Design", 0, 0,
   [("c1", c1Status),
    ("c2", ⟨"c2", "Beta", ComponentStatusKind.pending, some 0, none, none, none⟩),
    ("c3", ⟨"c3", "Gamma", ComponentStatusKind.pending, some 0, none, none, none⟩)]⟩

/-- The session store where all three components are tracked. -/
def c1TrackedSessions : List (String × WorkingFile) := [("client", c1TrackedSession)]

/-- A fresh session with no tracked statuses, created at time 0. -/
def c2Session : WorkingFile :=
  ⟨"file1", none, "https://www.figma.com/file/file1/Design", 0, 0, []⟩

/-- The session store holding only `c2Session`. -/
def c2Sessions : List (String × WorkingFile) := [("client", c2Session)]

/-- State after marking `comp` implemented at time 0. -/
def c2AfterFirst : List (String × WorkingFile) :=
  (SessionManager.updateComponentStatus c2Sessions "client" "comp" "Comp"
    ComponentStatusKind.implemented none none 0).2

/-- State after marking `comp` implemented again at time 5. -/
def c2AfterSecond : List (String × WorkingFile) :=
  (SessionManager.updateComponentStatus c2AfterFirst "client" "comp" "Comp"
    ComponentStatusKind.implemented none none 5).2

/-- The `implementedAt` stored for `comp` after the two updates. -/
def c2FinalImplementedAt : Option Int :=
  ((mapGet c2AfterSecond "client").bind
      (fun s => mapGet s.implementationStatus "comp")).bind
    (fun st => st.implementedAt)

/-
Association-list map lemmas.
-/

/-- Setting a key makes it retrievable. -/
theorem mapGet_mapSet_self {α : Type} (m : List (String × α)) (k : String) (v : α) :
    mapGet (mapSet m k v) k = some v := by
  induction m with
  | nil => simp [mapGet, mapSet]
  | cons p rest ih =>
    obtain ⟨k2, v2⟩ := p
    by_cases h : k2 = k
    · simp [mapGet, mapSet, h]
    · simp [mapGet, mapSet, h, ih]

/-- Deleting a key makes it absent. -/
theorem mapGet_mapDelete_self {α : Type} (m : List (String × α)) (k : String) :
    mapGet (mapDelete m k) k = none := by
  induction m with
  | nil => simp [mapGet, mapDelete]
  | cons p rest ih =>
    obtain ⟨k2, v2⟩ := p
    by_cases h : k2 = k
    · simp [mapDelete, h, ih]
    · simp [mapGet, mapDelete, h, ih]

/-
C9 — getWorkingFile: expiry strictly by setAt, refresh of lastAccessed.
-/

/-- C9: for every client with a stored session, `getWorkingFile` returns
null and deletes the session exactly when more than 24 hours have passed
since `setAt` (session creation, not last access); otherwise it returns
the session with `lastAccessed` refreshed to now (and stores that refresh)
— the refresh leaves `setAt` untouched, so read activity never extends the
session's lifetime. -/
theorem getWorkingFile_ttl_spec (sessions : List (String × WorkingFile))
    (clientId : String) (now : Int) (session : WorkingFile)
    (h : mapGet sessions clientId = some session) :
    (now - session.setAt > SessionManager.SESSION_TTL →
      (SessionManager.getWorkingFile sessions clientId now).1 = none ∧
      mapGet (SessionManager.getWorkingFile sessions clientId now).2 clientId = none) ∧
    (¬(now - session.setAt > SessionManager.SESSION_TTL) →
      (SessionManager.getWorkingFile sessions clientId now).1
          = some { session with lastAccessed := now } ∧
      mapGet (SessionManager.getWorkingFile sessions clientId now).2 clientId
          = some { session with lastAccessed := now } ∧
      ({ session with lastAccessed := now }).setAt = session.setAt) := by
  constructor
  · intro hexp
    simp [SessionManager.getWorkingFile, h, hexp, mapGet_mapDelete_self]
  · intro hlive
    simp [SessionManager.getWorkingFile, h, hlive, mapGet_mapSet_self]

/-- Witness for C9 at a concrete live session (now = 5, setAt = 0). -/
theorem getWorkingFile_ttl_spec_witness :
    (SessionManager.getWorkingFile c2Sessions "client" 5).1
        = some { c2Session with lastAccessed := 5 } ∧
    mapGet (SessionManager.getWorkingFile c2Sessions "client" 5).2 "client"
        = some { c2Session with lastAccessed := 5 } :=
  ⟨((getWorkingFile_ttl_spec c2Sessions "client" 5 c2Session (by decide)).2 (by decide)).1,
   ((getWorkingFile_ttl_spec c2Sessions "client" 5 c2Session (by decide)).2 (by decide)).2.1⟩

/-
C1 — getImplementationSummary's completion percentage.
-/

/-- C1 counterexample: with three candidate components of which exactly
one has a tracked status (implemented) and the other two are untracked,
`getImplementationSummary` reports a completion percentage of 100, not 33
— the ratio is computed over the tracked statuses only. -/
theorem summary_percentage_counterexample :
    (SessionManager.getImplementationSummary c1Sessions "client" 0).1.stats.completionPercentage
        = 100 ∧
    ¬((SessionManager.getImplementationSummary c1Sessions "client" 0).1.stats.completionPercentage
        = 33) := by
  decide

/-- C1 amended: for a live session, `getImplementationSummary` computes
`total` as the number of tracked statuses and the completion percentage as
`Math.round(implemented / tracked * 100)` over the tracked statuses only
(untracked components do not enter the ratio); it is 33 for one
implemented status among three tracked ones, and 100 when the only tracked
status is implemented. -/
theorem summary_percentage_over_tracked (sessions : List (String × WorkingFile))
    (clientId : String) (now : Int) (session : WorkingFile)
    (h : (SessionManager.getWorkingFile sessions clientId now).1 = some session)
    (hne : session.implementationStatus ≠ []) :
    (SessionManager.getImplementationSummary sessions clientId now).1.stats.total
        = session.implementationStatus.length ∧
    (SessionManager.getImplementationSummary sessions clientId now).1.stats.completionPercentage
        = jsRound
            ⟨(((session.implementationStatus.map (fun p => p.2)).filter
                  (fun s => s.status = ComponentStatusKind.implemented)).length : Int) * 100,
              (session.implementationStatus.length : Int)⟩ := by
  have hpos : session.implementationStatus.length > 0 := List.length_pos.mpr hne
  constructor
  · simp [SessionManager.getImplementationSummary, h]
  · simp only [SessionManager.getImplementationSummary, h]
    rw [if_pos]
    · congr 1
      simp [JSNum.div, JSNum.mul, JSNum.ofNat, JSNum.ofInt]
    · simpa using hpos

/-- Witness for the amended C1: three tracked statuses, one implemented,
percentage 33. -/
theorem summary_percentage_over_tracked_witness :
    (SessionManager.getImplementationSummary c1TrackedSessions "client" 0).1.stats.completionPercentage
        = 33 := by
  have h := summary_percentage_over_tracked c1TrackedSessions "client" 0 c1TrackedSession
    (by decide) (by decide)
  rw [h.2]
  decide

/-
C2 — updateComponentStatus and implementedAt.
-/

/-- C2 counterexample: a component already implemented (implementedAt = 0)
updated again with status implemented at time 5 ends with
implementedAt = 5 — the earlier timestamp is overwritten. -/
theorem implementedAt_refresh_counterexample :
    c2FinalImplementedAt = some 5 ∧ ¬(c2FinalImplementedAt = some 0) := by
  decide

/-- C2 amended: for a live session, `updateComponentStatus` succeeds and
stores `implementedAt = now` whenever the new status is implemented —
refreshing it even when the component was already implemented — and
preserves the previously stored `implementedAt` (possibly absent) for
every other status. -/
theorem updateComponentStatus_implementedAt (sessions : List (String × WorkingFile))
    (clientId componentId componentName : String) (status : ComponentStatusKind)
    (notes framework : Option String) (now : Int) (session : WorkingFile)
    (h : (SessionManager.getWorkingFile sessions clientId now).1 = some session) :
    (SessionManager.updateComponentStatus sessions clientId componentId componentName
        status notes framework now).1 = true ∧
    ((mapGet (SessionManager.updateComponentStatus sessions clientId componentId
            componentName status notes framework now).2 clientId).bind
        (fun s => mapGet s.implementationStatus componentId)).bind
      (fun st => st.implementedAt)
      = (if status = ComponentStatusKind.implemented then some now
         else (mapGet session.implementationStatus componentId).bind
           (fun st => st.implementedAt)) := by
  constructor
  · simp [SessionManager.updateComponentStatus, h]
  · simp [SessionManager.updateComponentStatus, h, mapGet_mapSet_self]

/-- Witness for the amended C2: marking a fresh component implemented at
time 0 stores implementedAt = 0. -/
theorem updateComponentStatus_implementedAt_witness :
    (SessionManager.updateComponentStatus c2Sessions "client" "comp" "Comp"
        ComponentStatusKind.implemented none none 0).1 = true ∧
    ((mapGet (SessionManager.updateComponentStatus c2Sessions "client" "comp" "Comp"
            ComponentStatusKind.implemented none none 0).2 "client").bind
        (fun s => mapGet s.implementationStatus "comp")).bind
      (fun st => st.implementedAt) = some 0 := by
  have h := updateComponentStatus_implementedAt c2Sessions "client" "comp" "Comp"
    ComponentStatusKind.implemented none none 0 c2Session (by decide)
  refine ⟨h.1, ?_⟩
  rw [h.2]
  decide

/-
C8 — getImplementationQueue partitions the candidate list.
-/

/-- The dispatch loop realizes the status partition: each bucket is the
filter of the input by its bucket, in input order, and `total` counts the
whole input. -/
theorem dispatchQueue_filters (sessionOpt : Option WorkingFile)
    (components : List ComponentListItem) :
    (SessionManager.dispatchQueue sessionOpt components).pending
        = components.filter (fun c => statusBucketOf sessionOpt c == ComponentStatusKind.pending) ∧
    (SessionManager.dispatchQueue sessionOpt components).inProgress
        = components.filter (fun c => statusBucketOf sessionOpt c == ComponentStatusKind.inProgress) ∧
    (SessionManager.dispatchQueue sessionOpt components).implemented
        = components.filter (fun c => statusBucketOf sessionOpt c == ComponentStatusKind.implemented) ∧
    (SessionManager.dispatchQueue sessionOpt components).needsUpdate
        = components.filter (fun c => statusBucketOf sessionOpt c == ComponentStatusKind.needsUpdate) ∧
    (SessionManager.dispatchQueue sessionOpt components).total = components.length := by
  induction components with
  | nil => simp [SessionManager.dispatchQueue]
  | cons component rest ih =>
    obtain ⟨ihp, ihi, ihm, ihn, iht⟩ := ih
    cases hlook : sessionOpt.bind (fun s => mapGet s.implementationStatus component.id) with
    | none =>
      simp [SessionManager.dispatchQueue, statusBucketOf, hlook, ihp, ihi, ihm, ihn, iht]
    | some st =>
      cases hst : st.status <;>
        simp [SessionManager.dispatchQueue, statusBucketOf, hlook, hst, ihp, ihi, ihm, ihn, iht]

/-- C8: `getImplementationQueue` partitions the candidate list by each
component's tracked status: every component lands in exactly one bucket
(the buckets are the filters of the input list by tracked status, with
untracked components and the no-live-session case defaulting to pending,
orders preserved), and `total` is the length of the input list. -/
theorem getImplementationQueue_partition (sessions : List (String × WorkingFile))
    (clientId : String) (components : List ComponentListItem) (now : Int) :
    (SessionManager.getImplementationQueue sessions clientId components now).1.pending
        = components.filter (fun c =>
            statusBucketOf (SessionManager.getWorkingFile sessions clientId now).1 c
              == ComponentStatusKind.pending) ∧
    (SessionManager.getImplementationQueue sessions clientId components now).1.inProgress
        = components.filter (fun c =>
            statusBucketOf (SessionManager.getWorkingFile sessions clientId now).1 c
              == ComponentStatusKind.inProgress) ∧
    (SessionManager.getImplementationQueue sessions clientId components now).1.implemented
        = components.filter (fun c =>
            statusBucketOf (SessionManager.getWorkingFile sessions clientId now).1 c
              == ComponentStatusKind.implemented) ∧
    (SessionManager.getImplementationQueue sessions clientId components now).1.needsUpdate
        = components.filter (fun c =>
            statusBucketOf (SessionManager.getWorkingFile sessions clientId now).1 c
              == ComponentStatusKind.needsUpdate) ∧
    (SessionManager.getImplementationQueue sessions clientId components now).1.total
        = components.length := by
  simpa [SessionManager.getImplementationQueue] using
    dispatchQueue_filters (SessionManager.getWorkingFile sessions clientId now).1 components

/-
C6 — CacheService set/get and TTL expiry.
-/

/-- A cache built with default options (defaultTtl 3600000, max 1000). -/
def c6Service : CacheService String := CacheService.create none none

/-- The state after `set("k", "v", 0)` at time 0: the JS expression
`ttl || this.defaultTtl` turns the explicit ttl 0 into the default. -/
def c6AfterSet : CacheService String := CacheService.set c6Service "k" "v" (some 0) 0

/-- C6 counterexample: after `set(k, v, ttl)` with ttl = 0, a `get(k)` one
millisecond later — more than ttl after the set — still returns the value:
the falsy ttl argument fell back to the one-hour default. -/
theorem cache_ttl_zero_counterexample :
    (CacheService.get c6AfterSet "k" 1).1 = some "v" ∧
    ¬((CacheService.get c6AfterSet "k" 1).1 = none) := by
  decide

/-- C6 amended: for every positive ttl (a ttl of 0 is falsy in JS and
falls back to the default), `set(k, v, ttl)` followed immediately by
`get(k)` returns the value, and once more than ttl has elapsed since the
set, `get(k)` returns null — an entry with `now - timestamp > ttl` is
treated as absent, whether the LRU layer already dropped it or the
wrapper's expiry check fires. -/
theorem cache_set_get_contract {α : Type} (cs : CacheService α) (key : String) (v : α)
    (ttl now later : Int) (httl : 0 < ttl) (hlru : 0 < cs.lru.lruTtl)
    (hmax : 1 ≤ cs.lru.max) :
    (CacheService.get (CacheService.set cs key v (some ttl) now) key now).1 = some v ∧
    (later - now > ttl →
      (CacheService.get (CacheService.set cs key v (some ttl) now) key later).1 = none) := by
  obtain ⟨m, hm⟩ : ∃ m, cs.lru.max = m + 1 :=
    ⟨cs.lru.max - 1, (Nat.succ_pred_eq_of_pos hmax).symm⟩
  have httl0 : ¬(ttl = 0) := by omega
  have hfresh : ¬(0 < cs.lru.lruTtl ∧ cs.lru.lruTtl ≤ 0) := by omega
  have hunexpired : ¬(ttl < 0) := by omega
  constructor
  · simp [CacheService.set, CacheService.get, lruSet, lruGet, CacheService.isExpired,
      hm, httl0, List.take_succ_cons, List.find?, hfresh, hunexpired]
  · intro hlater
    have hexp : ttl < later - now := hlater
    by_cases hstale : cs.lru.lruTtl ≤ later - now
    · simp [CacheService.set, CacheService.get, lruSet, lruGet, CacheService.isExpired,
        hm, httl0, List.take_succ_cons, List.find?, hstale, hlru]
    · simp [CacheService.set, CacheService.get, lruSet, lruGet, CacheService.isExpired,
        lruDelete, hm, httl0, List.take_succ_cons, List.find?, hstale, hexp]

/-- Witness for the amended C6 at ttl 5: immediate get returns the value,
a get 6ms later returns null. -/
theorem cache_set_get_contract_witness :
    (CacheService.get (CacheService.set (CacheService.create none none : CacheService String)
        "k" "v" (some 5) 0) "k" 0).1 = some "v" ∧
    (CacheService.get (CacheService.set (CacheService.create none none : CacheService String)
        "k" "v" (some 5) 0) "k" 6).1 = none :=
  ⟨(cache_set_get_contract (CacheService.create none none) "k" "v" 5 0 6
      (by decide) (by decide) (by decide)).1,
   (cache_set_get_contract (CacheService.create none none) "k" "v" 5 0 6
      (by decide) (by decide) (by decide)).2 (by decide)⟩

/-
C3 — availability metadata through the tokenTypes filter.
-/

/-- Availability metadata of a degraded extraction (variables API
unavailable, Enterprise plan required). -/
def c3Metadata : TokenMetadata :=
  ⟨false, some "Figma Variables require Enterprise plan. Using legacy styles only.",
   some "Enterprise"⟩

/-- A color token as synthesized from a legacy FILL style. -/
def c3Token : DesignToken :=
  ⟨"primary-button-bg", TokenValue.ofString "#ff0000", "color", none,
   some "primary", some ["general"], none, none, none⟩

/-- The cached `tokens:{fileId}` collection: one color token, degraded
availability metadata attached. -/
def c3Cached : TokenCollection := ⟨[c3Token], [], [], [], [], some c3Metadata⟩

/-- An empty collection (stands for the never-computed fresh synthesis on
the cache-hit path). -/
def c3Empty : TokenCollection := ⟨[], [], [], [], [], none⟩

/-- C3: on a cache hit of the `tokens:{fileId}` entry with a tokenTypes
filter other than `all`, `extractTokens` returns the filter result
directly and the filter builds a collection without `_metadata` — the
availability metadata carried by the cached collection is dropped. The
cache-miss path and the `all` sentinel both preserve it, which is the
stated (and code-commented) intent the cache-hit path violates. -/
theorem metadata_dropped_on_cache_hit :
    (DesignTokenExtractor.extractTokensResult (some c3Cached) c3Empty ["colors"])._metadata
        = none ∧
    c3Cached._metadata = some c3Metadata ∧
    (DesignTokenExtractor.extractTokensResult (some c3Cached) c3Empty ["colors"]).colors
        = [c3Token] ∧
    (DesignTokenExtractor.extractTokensResult none c3Cached ["colors"])._metadata
        = some c3Metadata ∧
    (DesignTokenExtractor.extractTokensResult (some c3Cached) c3Empty ["all"])._metadata
        = some c3Metadata := by
  decide

/-
C10 — variables with a falsy default-mode value yield no token.
-/

/-- C10: a variable whose value in its collection's default mode is
absent, or present but falsy (boolean false, the number 0, the empty
string), is skipped by `convertVariableToToken` — the `if (!defaultValue)`
guard treats a falsy value exactly like an absent one. -/
theorem convertVariableToToken_falsy («variable» : FigmaVariable)
    (collectionsMap : List (String × VariableCollection))
    (h : defaultModeValue «variable» collectionsMap = none ∨
         ∃ v, defaultModeValue «variable» collectionsMap = some v ∧ jsTruthy v = false) :
    DesignTokenExtractor.convertVariableToToken «variable» collectionsMap = none := by
  rcases h with h | ⟨v, hv, hfalse⟩
  · simp [DesignTokenExtractor.convertVariableToToken, h]
  · simp [DesignTokenExtractor.convertVariableToToken, hv, hfalse]

/-- A two-mode boolean variable collection. -/
def c10Collection : VariableCollection :=
  ⟨"vc1", "theme", some "m1", [⟨"m1", "Mode 1"⟩, ⟨"m2", "Mode 2"⟩]⟩

/-- A BOOLEAN variable whose default-mode (m1) value is false. -/
def c10Variable : FigmaVariable :=
  ⟨"var1", "dark-mode", none, "vc1", "BOOLEAN",
   [("m1", VariableValue.ofBool false), ("m2", VariableValue.ofBool true)]⟩

/-- Witness for C10: the boolean variable with default-mode value false
yields no token. -/
theorem convertVariableToToken_falsy_witness :
    defaultModeValue c10Variable [("vc1", c10Collection)]
        = some (VariableValue.ofBool false) ∧
    jsTruthy (VariableValue.ofBool false) = false ∧
    DesignTokenExtractor.convertVariableToToken c10Variable [("vc1", c10Collection)] = none :=
  ⟨by decide, by decide,
   convertVariableToToken_falsy c10Variable [("vc1", c10Collection)]
     (Or.inr ⟨VariableValue.ofBool false, by decide, by decide⟩)⟩

/-
C4 — state=X against the earlier generic substring rules.
-/

/-- C4 counterexample: the layer named `hover state=error` contains
`state=error` with `error` canonical, yet classifies as `hover` — the
ordered generic substring loop returns before the `state=` extraction is
ever consulted. -/
theorem parseState_precedence_counterexample :
    parseStateFromLayerName "hover state=error" statePatterns = some "hover" ∧
    ¬(parseStateFromLayerName "hover state=error" statePatterns = some "error") := by
  decide

/-- C4 amended: whenever a layer name contains `state=X` with `X` in the
canonical list, the generic rules necessarily match (the `state=X`
substring itself is one of them), and the classification is the FIRST
canonical state in the fixed order that matches a generic rule — `X` wins
only when it is that first match; the `state=` fallback never overrides an
earlier generic match. -/
theorem parseState_first_generic_match (layerName X : String)
    (hX : X ∈ statePatterns)
    (hc : strContainsSub (strLower layerName) ("state=" ++ X) = true) :
    (statePatterns.find? (fun pattern => stateGenericMatch (strLower layerName) pattern)).isSome ∧
    parseStateFromLayerName layerName statePatterns
        = statePatterns.find? (fun pattern => stateGenericMatch (strLower layerName) pattern) := by
  have hgen : stateGenericMatch (strLower layerName) X = true := by
    simp [stateGenericMatch, hc]
  have hsome :
      (statePatterns.find? (fun pattern => stateGenericMatch (strLower layerName) pattern)).isSome := by
    rw [List.find?_isSome]
    exact ⟨X, hX, hgen⟩
  refine ⟨hsome, ?_⟩
  obtain ⟨p, hp⟩ := Option.isSome_iff_exists.mp hsome
  simp [parseStateFromLayerName, hp]

/-- Witness for the amended C4 at the layer `hover state=error`. -/
theorem parseState_first_generic_match_witness :
    (statePatterns.find?
        (fun pattern => stateGenericMatch (strLower "hover state=error") pattern)).isSome ∧
    parseStateFromLayerName "hover state=error" statePatterns
        = statePatterns.find?
            (fun pattern => stateGenericMatch (strLower "hover state=error") pattern) :=
  parseState_first_generic_match "hover state=error" "error" (by decide) (by decide)

/-
C7 — effect-to-CSS conversion.
-/

/-- The drop shadow of the specification example: offset (0, 4), radius 8,
spread 0, color rgba(0, 0, 0, 0.25). -/
def c7Shadow : FigmaEffect :=
  { type := "DROP_SHADOW"
    color := some ⟨⟨0, 1⟩, ⟨0, 1⟩, ⟨0, 1⟩, some ⟨1, 4⟩⟩
    offset := some ⟨⟨0, 1⟩, ⟨4, 1⟩⟩
    radius := some ⟨8, 1⟩
    spread := some ⟨0, 1⟩
    visible := none }

/-- A second stacked drop shadow: offset (0, 2), radius 4, red at alpha
one half. -/
def c7Shadow2 : FigmaEffect :=
  { type := "DROP_SHADOW"
    color := some ⟨⟨1, 1⟩, ⟨0, 1⟩, ⟨0, 1⟩, some ⟨1, 2⟩⟩
    offset := some ⟨⟨0, 1⟩, ⟨2, 1⟩⟩
    radius := some ⟨4, 1⟩
    spread := some ⟨0, 1⟩
    visible := some true }

/-- The second shadow with `visible: false`. -/
def c7Invisible : FigmaEffect := { c7Shadow2 with visible := some false }

/-- C7: the example drop shadow converts (through `extractEffects`, which
renders the color with `rgbaToCSS`, and `convertEffectsToCSS`) to
`0px 4px 8px 0px rgba(0, 0, 0, 0.25)`; two stacked drop shadows combine
into one comma-joined box-shadow in input order; an effect with
`visible === false` contributes nothing to the output. -/
theorem convertEffects_drop_shadow_spec :
    (convertEffectsToCSS (extractEffects [c7Shadow])).boxShadow
        = some "0px 4px 8px 0px rgba(0, 0, 0, 0.25)" ∧
    (convertEffectsToCSS (extractEffects [c7Shadow, c7Shadow2])).boxShadow
        = some "0px 4px 8px 0px rgba(0, 0, 0, 0.25), 0px 2px 4px 0px rgba(255, 0, 0, 0.5)" ∧
    convertEffectsToCSS (extractEffects [c7Invisible])
        = { boxShadow := none, filter := none, backdropFilter := none } ∧
    convertEffectsToCSS (extractEffects [c7Shadow, c7Invisible])
        = convertEffectsToCSS (extractEffects [c7Shadow]) := by
  decide

/-
C5 — traversal: single visits on trees; divergence on back-references.
-/

mutual

/-- The pre-order visit sequence of a tree visits exactly its nodes: its
length is the node count, so no node is visited twice. -/
theorem preorderNodes_length : ∀ n : FigmaNode, (preorderNodes n).length = nodeCount n
  | FigmaNode.mk i nm ty ch => by
    simp [preorderNodes, nodeCount, preorderForest_length ch, Nat.add_comm]

/-- Child-list version of `preorderNodes_length`. -/
theorem preorderForest_length : ∀ l : List FigmaNode, (preorderForest l).length = forestCount l
  | [] => by simp [preorderForest, forestCount]
  | c :: cs => by
    simp [preorderForest, forestCount, preorderNodes_length c, preorderForest_length cs]

end

mutual

/-- `findInNode` is the first pre-order node with the requested id. -/
theorem findInNode_eq_preorder : ∀ (n : FigmaNode) (t : String),
    findInNode t n = (preorderNodes n).find? (fun m => m.id == t)
  | FigmaNode.mk i nm ty ch, t => by
    simp only [findInNode, preorderNodes, List.find?]
    cases hb : (FigmaNode.mk i nm ty ch).id == t with
    | true => simp_all [FigmaNode.id]
    | false => simp_all [FigmaNode.id, findInNodeList_eq_preorder ch t]

/-- Child-list version of `findInNode_eq_preorder`. -/
theorem findInNodeList_eq_preorder : ∀ (l : List FigmaNode) (t : String),
    findInNodeList t l = (preorderForest l).find? (fun m => m.id == t)
  | [], t => by simp [findInNodeList, preorderForest]
  | c :: cs, t => by
    simp only [findInNodeList, preorderForest, List.find?_append]
    rw [findInNode_eq_preorder c t, findInNodeList_eq_preorder cs t]
    cases (preorderNodes c).find? (fun m => m.id == t) <;> simp

end

mutual

/-- `extractComponentListNode` lists exactly the COMPONENT/COMPONENT_SET
nodes of the pre-order visit sequence, each contributing one item. -/
theorem extractComponentListNode_eq : ∀ n : FigmaNode,
    extractComponentListNode n
      = ((preorderNodes n).filter
            (fun m => m.type == "COMPONENT" || m.type == "COMPONENT_SET")).map
          (fun m => { id := m.id, name := m.name, type := m.type })
  | FigmaNode.mk i nm ty ch => by
    simp only [extractComponentListNode, preorderNodes, List.filter]
    cases hb : (FigmaNode.mk i nm ty ch).type == "COMPONENT"
        || (FigmaNode.mk i nm ty ch).type == "COMPONENT_SET" with
    | true =>
      simp_all [FigmaNode.type, FigmaNode.id, FigmaNode.name,
        extractComponentListChildren_eq ch]
    | false =>
      simp_all [FigmaNode.type, extractComponentListChildren_eq ch]

/-- Child-list version of `extractComponentListNode_eq`. -/
theorem extractComponentListChildren_eq : ∀ l : List FigmaNode,
    extractComponentListChildren l
      = ((preorderForest l).filter
            (fun m => m.type == "COMPONENT" || m.type == "COMPONENT_SET")).map
          (fun m => { id := m.id, name := m.name, type := m.type })
  | [] => by simp [extractComponentListChildren, preorderForest]
  | c :: cs => by
    simp [extractComponentListChildren, preorderForest, List.filter_append,
      extractComponentListNode_eq c, extractComponentListChildren_eq cs]

end

/-- C5 amended: on tree-shaped documents (the only shape a JSON payload
can produce) both traversals terminate and visit each node exactly once:
the visit sequence is the pre-order listing whose length is the node
count, `findComponentInFile` returns the first pre-order node with the
requested id, and `extractComponentList` maps exactly the pre-order
COMPONENT/COMPONENT_SET nodes. The code tracks no visited identities; on
a node graph with a back-reference the same recursion never returns (see
the counterexample). -/
theorem traversal_tree_visits_once (document : FigmaNode) (componentId : String) :
    (preorderNodes document).length = nodeCount document ∧
    findComponentInFile document componentId
        = (preorderNodes document).find? (fun m => m.id == componentId) ∧
    extractComponentList document
        = ((preorderNodes document).filter
              (fun m => m.type == "COMPONENT" || m.type == "COMPONENT_SET")).map
            (fun m => { id := m.id, name := m.name, type := m.type }) :=
  ⟨preorderNodes_length document,
   findInNode_eq_preorder document componentId,
   extractComponentListNode_eq document⟩

/-- On the one-node cycle, the traversal recursion exhausts any budget. -/
theorem findGraphFuel_cycle (fuel : Nat) :
    findGraphFuel cycleStore "b" fuel "a" = none := by
  induction fuel with
  | zero => rfl
  | succ n ih =>
    simp only [cycleStore] at ih ⊢
    simp [findGraphFuel, graphChildren, mapGet, ih]

/-- C5 counterexample: the traversal does not track visited identities —
on a node graph with a back-reference (node `a` its own child) the search
for a missing id terminates under no recursion budget at all, refuting
termination on every input node graph. -/
theorem traversal_cycle_counterexample :
    ¬ ∃ fuel : Nat, (findGraphFuel cycleStore "b" fuel "a").isSome := by
  rintro ⟨fuel, h⟩
  rw [findGraphFuel_cycle fuel] at h
  simp at h
